import Mathlib

set_option maxHeartbeats 1000000

namespace FinParser

/-- Cell values as read from a worksheet (openpyxl with data_only): a string,
an integer, or an empty cell (Python None). -/
inductive CellValue : Type
  | str : String → CellValue
  | int : Int → CellValue
  | null : CellValue
deriving DecidableEq

/-- Python str() applied to a cell value: None renders as the text "None". -/
def pyStr : CellValue → String
  | CellValue.str s => s
  | CellValue.int n => toString n
  | CellValue.null => "None"

/-- Drop leading whitespace characters from a character list. -/
def stripLeftChars (cs : List Char) : List Char := cs.dropWhile Char.isWhitespace

/-- Python str.strip(): remove leading and trailing whitespace. -/
def pyStrip (s : String) : String :=
  String.mk ((stripLeftChars ((stripLeftChars s.toList).reverse)).reverse)

/-- Python str.lower() (ASCII case folding, as used on the ASCII texts here). -/
def pyLower (s : String) : String := String.mk (s.toList.map Char.toLower)

/-- Does the first list start with the second one? -/
def startsWithChars : List Char → List Char → Bool
  | _, [] => true
  | [], _ :: _ => false
  | a :: as, b :: bs => a == b && startsWithChars as bs

/-- Substring occurrence test on character lists (Python's `needle in hay`). -/
def hasSubChars : List Char → List Char → Bool
  | [], needle => needle.isEmpty
  | a :: t, needle => startsWithChars (a :: t) needle || hasSubChars t needle

/-- Python's `needle in hay` on strings. -/
def strContainsSub (hay needle : String) : Bool := hasSubChars hay.toList needle.toList

/-- build_row_data's category decision (main_0.py lines 82-90): the first-column
text is stripped and lower-cased, then tested for the substrings "header" and
"sub" in that fixed order. -/
def categorize (rawText : String) : String :=
  let textLower := pyLower (pyStrip rawText)
  if strContainsSub textLower "header" then "IS Statement Header"
  else if strContainsSub textLower "sub" then "Sub Header"
  else "Financial Metric"

/-- One entry of build_row_data's output: excel_row, category, and the raw row. -/
structure RowData : Type where
  excelRow : Int
  category : String
  values : List CellValue
deriving DecidableEq

/-- The loop of build_row_data (main_0.py lines 81-97): `i` is the DataFrame
RangeIndex value of the next row, excel_row is i + 1. -/
def buildRowDataFrom : Int → List (List CellValue) → List RowData
  | _, [] => []
  | i, r :: rs =>
    ⟨i + 1, categorize (pyStr (r.headD CellValue.null)), r⟩ :: buildRowDataFrom (i + 1) rs

/-- build_row_data (main_0.py lines 60-99): the DataFrame's fresh RangeIndex
starts at 0, and each row is categorized from its first-column text. -/
def buildRowData (rows : List (List CellValue)) : List RowData := buildRowDataFrom 0 rows

/-- The first-column text a body row contributes before stripping: Python
str() of the first cell (the value build_row_data and assign_headers read). -/
def usedTextRaw (vals : List CellValue) : String := pyStr (vals.headD CellValue.null)

/-- The stripped first-column text of a row's values (assign_headers line 127
and the text categorize strips before its substring tests). -/
def usedText (vals : List CellValue) : String := pyStrip (usedTextRaw vals)

/-- The mutable header state assign_headers maintains while scanning in
reverse: current IS-statement-header, sub-header and main-header texts. -/
structure HeaderState : Type where
  ih : Option String
  sh : Option String
  mh : Option String
deriving DecidableEq

/-- A row after assign_headers: the raw row plus the three propagated fields. -/
structure ClassifiedRow : Type where
  excelRow : Int
  category : String
  values : List CellValue
  isStatementHeader : Option String
  subHeader : Option String
  mainHeader : Option String
deriving DecidableEq

/-- The stripped first-column text of a RowData (assign_headers line 127). -/
def rowText (r : RowData) : String := usedText r.values

/-- One step of assign_headers' reverse scan (main_0.py lines 129-137): the
category decides which of the three current texts to overwrite. -/
def updateState (st : HeaderState) (r : RowData) : HeaderState :=
  if r.category = "IS Statement Header" then ⟨some (rowText r), st.sh, st.mh⟩
  else if r.category = "Sub Header" then ⟨st.ih, some (rowText r), st.mh⟩
  else ⟨st.ih, st.sh, some (rowText r)⟩

/-- After its state update, a row receives all three current texts
(main_0.py lines 140-142). -/
def mkClassified (r : RowData) (st : HeaderState) : ClassifiedRow :=
  ⟨r.excelRow, r.category, r.values, st.ih, st.sh, st.mh⟩

/-- assign_headers' reverse scan as a right fold: the state a row observes is
the state after all rows below it (visited earlier in the reversed loop) have
been processed; the function returns the rows in original order together with
the final state. -/
def assignAux : List RowData → List ClassifiedRow × HeaderState
  | [] => ([], ⟨none, none, none⟩)
  | r :: rest =>
    let prev := assignAux rest
    let st := updateState prev.2 r
    (mkClassified r st :: prev.1, st)

/-- assign_headers (main_0.py lines 102-144). -/
def assignHeaders (rows : List RowData) : List ClassifiedRow := (assignAux rows).1

/-- Render an optional propagated text as a cell (None stays a null cell). -/
def optCell : Option String → CellValue
  | none => CellValue.null
  | some s => CellValue.str s

/-- A pandas DataFrame, reduced to what the pipeline observes: the ordered
column labels and the rows. -/
structure PyDataFrame : Type where
  columns : List CellValue
  rows : List (List CellValue)
deriving DecidableEq

/-- build_cleaned_dataframe (main_0.py lines 147-174): empty input gives the
empty DataFrame (no columns at all); otherwise the five derived columns come
first, followed by the original columns with str() applied to their labels. -/
def buildCleanedDataframe (origCols : List CellValue) (rows : List ClassifiedRow) :
    PyDataFrame :=
  match rows with
  | [] => ⟨[], []⟩
  | _ =>
    ⟨[CellValue.str "Excel Row", CellValue.str "Category",
      CellValue.str "IS Statement Header", CellValue.str "Sub Header",
      CellValue.str "Main Header"] ++ origCols.map (fun c => CellValue.str (pyStr c)),
     rows.map fun r =>
       [CellValue.int r.excelRow, CellValue.str r.category,
        optCell r.isStatementHeader, optCell r.subHeader, optCell r.mainHeader]
       ++ r.values⟩

/-- process_sheet (main_0.py lines 177-228) on a sheet already loaded as its
list of value rows. With skip_header_rows > 0 the first row supplies the
column labels and the first skip_header_rows rows are dropped from the data;
with 0, columns are the integer RangeIndex. Line 222 then accesses
cleaned_df["Category"] unconditionally, which is a KeyError precisely when
that column does not exist (the cleaned DataFrame is empty). -/
def processSheet (dataRows : List (List CellValue)) (skipHeaderRows : Nat) :
    Except String PyDataFrame :=
  match dataRows with
  | [] => Except.ok ⟨[], []⟩
  | first :: _ =>
    let cols :=
      if skipHeaderRows > 0 then first
      else (List.range first.length).map fun i => CellValue.int i
    let body := if skipHeaderRows > 0 then dataRows.drop skipHeaderRows else dataRows
    let cleaned := buildCleanedDataframe cols (assignHeaders (buildRowData body))
    if CellValue.str "Category" ∈ cleaned.columns then Except.ok cleaned
    else Except.error "KeyError: Category"

/-- A worksheet cell together with its font's bold flag (none: no font
information; openpyxl would report bold as None/False/True). -/
structure CellF : Type where
  value : CellValue
  bold : Option Bool
deriving DecidableEq

/-- sheet.values (main_0.py line 198): reading a sheet's values discards all
font/formatting information. -/
def sheetValues (g : List (List CellF)) : List (List CellValue) :=
  g.map (List.map CellF.value)

/-- build_row_data as reached from a formatted sheet: the pipeline only ever
sees sheet.values, so classification consumes the values alone. -/
def buildRowDataF (g : List (List CellF)) : List RowData := buildRowData (sheetValues g)

/-- process_sheet as reached from a formatted sheet (via sheet.values). -/
def processSheetF (g : List (List CellF)) (skipHeaderRows : Nat) :
    Except String PyDataFrame :=
  processSheet (sheetValues g) skipHeaderRows

/-- drop_duplicates keeping the first occurrence (pandas semantics of
main_0.py line 272), with the already-seen records as an accumulator. -/
def ddAux {α : Type} [DecidableEq α] : List α → List α → List α
  | _, [] => []
  | seen, x :: xs => if x ∈ seen then ddAux seen xs else x :: ddAux (x :: seen) xs

/-- combined_df.drop_duplicates() (main_0.py line 272): remove every record
equal, field for field, to an earlier record. -/
def dropDuplicates {α : Type} [DecidableEq α] (l : List α) : List α := ddAux [] l

/-- One row of the combined table (main_0.py lines 259-267): a cleaned row
plus the five metadata fields attached per sheet before concatenation. -/
structure CombinedRecord : Type where
  excelRow : Int
  category : String
  isStatementHeader : Option String
  subHeader : Option String
  mainHeader : Option String
  cells : List CellValue
  workbookName : String
  sheetName : String
  company : CellValue
  segment : CellValue
  periodEnd : CellValue
deriving DecidableEq

/-- Expand a fiscal-year digit string: two digits are prefixed with "20",
four digits are kept as they are. -/
def expandYear (ds : List Char) : String :=
  if ds.length = 2 then String.mk ('2' :: '0' :: ds) else String.mk ds

/-- Modelled from the spec: the FY component of the Period Label Parser
(spec section 4.1), which is absent from src/. The characters must be an
"FY" (case-insensitive) followed by exactly 2 or 4 digits. -/
def parseFYchars : List Char → Option String
  | f :: y :: ds =>
    if f.toLower = 'f' ∧ y.toLower = 'y' ∧ ds.all Char.isDigit = true ∧
        (ds.length = 2 ∨ ds.length = 4) then
      some (expandYear ds)
    else none
  | _ => none

/-- Modelled from the spec: the optional single separator between the quarter
and the FY component (spec section 4.1): a hyphen or one space, or nothing. -/
def consumeSep : List Char → List Char
  | [] => []
  | c :: r => if c = '-' ∨ c = ' ' then r else c :: r

/-- Modelled from the spec: the fallback forms of the Period Label Parser
(spec section 4.1), absent from src/: a bare FY label yields the
"All Periods" quarter sentinel with the year, the literal "All Periods"
yields the sentinel with no year, and anything else yields two nulls. -/
def parseOtherChars (cs : List Char) : Option String × Option String :=
  match parseFYchars cs with
  | some fy => (some "All Periods", some fy)
  | none =>
    if cs.map Char.toLower = ['a', 'l', 'l', ' ', 'p', 'e', 'r', 'i', 'o', 'd', 's'] then
      (some "All Periods", none)
    else (none, none)

/-- Modelled from the spec: the Period Label Parser (spec section 4.1),
absent from src/, on a label's character list: Q plus a digit 1-4 plus an
optional separator plus an FY component yields ("Q{n}", year); otherwise the
fallback forms are tried; unmatched input yields two nulls. -/
def parsePeriodChars : List Char → Option String × Option String
  | q :: d :: rest =>
    if q.toLower = 'q' ∧ '1' ≤ d ∧ d ≤ '4' then
      match parseFYchars (consumeSep rest) with
      | some fy => (some (String.mk ['Q', d]), some fy)
      | none => (none, none)
    else parseOtherChars (q :: d :: rest)
  | cs => parseOtherChars cs

/-- Modelled from the spec: the Period Label Parser (spec section 4.1) on a
column-header string. It is a total function: it never fails. -/
def parsePeriodLabel (s : String) : Option String × Option String :=
  parsePeriodChars s.toList

/-- A character list of the form Q{1-4} + optional separator + FY{2 or 4
digits}, case-insensitively (the first recognized form of spec section 4.1). -/
def QFormDecomp (cs : List Char) : Prop :=
  ∃ (q d f y : Char) (sep ds : List Char),
    cs = q :: d :: (sep ++ f :: y :: ds) ∧
    q.toLower = 'q' ∧ '1' ≤ d ∧ d ≤ '4' ∧
    (sep = [] ∨ sep = ['-'] ∨ sep = [' ']) ∧
    f.toLower = 'f' ∧ y.toLower = 'y' ∧
    ds.all Char.isDigit = true ∧ (ds.length = 2 ∨ ds.length = 4)

/-- A character list of the form FY{2 or 4 digits}, case-insensitively (the
second recognized form of spec section 4.1). -/
def FYFormDecomp (cs : List Char) : Prop :=
  ∃ (f y : Char) (ds : List Char),
    cs = f :: y :: ds ∧ f.toLower = 'f' ∧ y.toLower = 'y' ∧
    ds.all Char.isDigit = true ∧ (ds.length = 2 ∨ ds.length = 4)

/-- The literal "All Periods" form, case-insensitively (the third recognized
form of spec section 4.1). -/
def APFormDecomp (cs : List Char) : Prop :=
  cs.map Char.toLower = ['a', 'l', 'l', ' ', 'p', 'e', 'r', 'i', 'o', 'd', 's']

/-- A string matches one of the three recognized period-label forms. -/
def matchesPeriodForm (s : String) : Prop :=
  QFormDecomp s.toList ∨ FYFormDecomp s.toList ∨ APFormDecomp s.toList

/-- A classified body row as the Wide-to-Long Transformer consumes it:
metric name, inherited sub-header, and the named period cells. -/
structure MeltRow : Type where
  metric : String
  subHeader : Option String
  cells : List (String × CellValue)
deriving DecidableEq

/-- The atomic output unit of the pipeline (spec section 3): one record per
(metric row, period column) pair. -/
structure LongRecord : Type where
  financialMetric : String
  subHeader : Option String
  periodLabelRaw : String
  quarter : Option String
  fiscalYear : Option String
  financialAmount : CellValue
deriving DecidableEq

/-- Modelled from the spec: one emission of the Wide-to-Long Transformer
(spec section 4.5), absent from src/: the record carries the metric, the
inherited sub-header, the raw column name, the parsed (quarter, year) and
the cell value under that column. -/
def meltRecord (r : MeltRow) (col : String) : LongRecord :=
  ⟨r.metric, r.subHeader, col, (parsePeriodLabel col).1, (parsePeriodLabel col).2,
   (r.cells.lookup col).getD CellValue.null⟩

/-- Modelled from the spec: the Wide-to-Long Transformer (spec section 4.5),
absent from src/: every retained body row is melted against every period
column, before any null-amount filtering. -/
def meltSheet (periodCols : List String) (rows : List MeltRow) : List LongRecord :=
  match rows with
  | [] => []
  | r :: rest => periodCols.map (meltRecord r) ++ meltSheet periodCols rest

/-- Is an amount blank: a null cell or a whitespace-only string. -/
def isBlankAmount : CellValue → Bool
  | CellValue.null => true
  | CellValue.str s => pyStrip s = ""
  | CellValue.int _ => false

/-- Modelled from the spec: the null-amount filter applied after melting
(spec section 4.5), absent from src/. -/
def dropNullAmounts (l : List LongRecord) : List LongRecord :=
  l.filter fun rec => !isBlankAmount rec.financialAmount

/-- A sheet with a header row and no body rows (main_0.py gets such a grid
from a sheet whose only content is its column-name row). -/
def headerOnlySheet : List (List CellValue) :=
  [[CellValue.str "Metric", CellValue.str "Q1 FY23"]]

/-- A sheet with a header row and a single body row. -/
def twoRowSheet : List (List CellValue) :=
  [[CellValue.str "Metric", CellValue.str "Q1 FY23"],
   [CellValue.str "Revenue", CellValue.int 100]]

/-- A sheet with exactly 3 total rows: one header row and two body rows. -/
def threeRowSheet : List (List CellValue) :=
  [[CellValue.str "Metric", CellValue.str "Q1 FY23"],
   [CellValue.str "Revenue", CellValue.int 100],
   [CellValue.str "Product A", CellValue.int 200]]

/-- C10: build_row_data categorizes a row solely from its first-column text,
stripped and lower-cased, by substring tests in a fixed order: a text
containing "header" is an "IS Statement Header"; otherwise one containing
"sub" is a "Sub Header"; otherwise "Financial Metric". Consequently a text
containing both "sub" and "header" is always an "IS Statement Header" and
never a "Sub Header". -/
theorem categorize_precedence (s t u : String) :
    (strContainsSub (pyLower (pyStrip s)) "header" = true →
      categorize s = "IS Statement Header") ∧
    (strContainsSub (pyLower (pyStrip t)) "header" = false →
      strContainsSub (pyLower (pyStrip t)) "sub" = true →
      categorize t = "Sub Header") ∧
    (strContainsSub (pyLower (pyStrip u)) "header" = false →
      strContainsSub (pyLower (pyStrip u)) "sub" = false →
      categorize u = "Financial Metric") ∧
    (strContainsSub (pyLower (pyStrip s)) "sub" = true →
      strContainsSub (pyLower (pyStrip s)) "header" = true →
      categorize s = "IS Statement Header" ∧ categorize s ≠ "Sub Header") := by
  refine ⟨?_, ?_, ?_, ?_⟩ <;> intros <;> simp_all [categorize]

/-- Witness for C10 at the texts "Sub Header" (contains both substrings),
"sub total" and "Revenue". -/
theorem categorize_precedence_witness :
    categorize "Sub Header" = "IS Statement Header" ∧
    categorize "sub total" = "Sub Header" ∧
    categorize "Revenue" = "Financial Metric" := by
  have h := categorize_precedence "Sub Header" "sub total" "Revenue"
  exact ⟨h.1 (by decide), h.2.1 (by decide) (by decide), h.2.2.1 (by decide) (by decide)⟩

/-- C2 counterexample: a row whose first-column cell carries an explicitly
non-bold font but whose text is "Subtotal" is classified as a structural
"Sub Header" row, and the same non-bold font with the text "Revenue" gives a
different classification — so classification is decided by the text, not by
the bold flag, refuting the claim that only an explicit bold flag makes a
row a header. -/
theorem classification_ignores_bold_cex :
    (buildRowDataF [[⟨CellValue.str "Subtotal", some false⟩]]).map
        (fun r => r.category) = ["Sub Header"] ∧
    (buildRowDataF [[⟨CellValue.str "Revenue", some false⟩]]).map
        (fun r => r.category) = ["Financial Metric"] :=
  ⟨rfl, rfl⟩

/-- C2 (amended): structure detection uses only the cell values read via
sheet.values — two formatted sheets with the same cell values but any
difference in font/bold information classify and process identically; the
classification is decided by substring tests on the first-column text. -/
theorem classification_depends_only_on_values
    (g1 g2 : List (List CellF)) (skip : Nat)
    (h : sheetValues g1 = sheetValues g2) :
    buildRowDataF g1 = buildRowDataF g2 ∧ processSheetF g1 skip = processSheetF g2 skip := by
  unfold buildRowDataF processSheetF
  rw [h]
  exact ⟨rfl, rfl⟩

/-- Witness for C2 (amended): the same text under a non-bold and a bold font. -/
theorem classification_depends_only_on_values_witness :
    buildRowDataF [[⟨CellValue.str "Subtotal", some false⟩]]
      = buildRowDataF [[⟨CellValue.str "Subtotal", some true⟩]] ∧
    processSheetF [[⟨CellValue.str "Subtotal", some false⟩]] 0
      = processSheetF [[⟨CellValue.str "Subtotal", some true⟩]] 0 :=
  classification_depends_only_on_values
    [[⟨CellValue.str "Subtotal", some false⟩]]
    [[⟨CellValue.str "Subtotal", some true⟩]] 0 rfl

/-- C3: contrary to the claim, a sheet whose body is empty after the header
row is not a skip — process_sheet reaches line 222 with an empty cleaned
DataFrame that has no "Category" column and raises KeyError, an uncaught
exception below the orchestrator (which has no handler). -/
theorem processSheet_empty_body_raises :
    processSheet headerOnlySheet 1 = Except.error "KeyError: Category" := rfl

/-- C7 counterexample: a sheet with exactly 3 total rows is not skipped and
does not yield zero records — process_sheet returns a 2-row cleaned
DataFrame. -/
theorem processSheet_three_rows_cex :
    (processSheet threeRowSheet 1).toOption.map (fun df => df.rows.length) ≠ some 0 := by
  decide

/-- C7 (amended): a sheet with only 3 total rows is processed normally, not
skipped: the first row supplies the column labels and the remaining two rows
become two cleaned records; there is no 8-row metadata threshold in the
code. -/
theorem processSheet_three_rows_processed :
    processSheet threeRowSheet 1 = Except.ok
      ⟨[CellValue.str "Excel Row", CellValue.str "Category",
        CellValue.str "IS Statement Header", CellValue.str "Sub Header",
        CellValue.str "Main Header", CellValue.str "Metric", CellValue.str "Q1 FY23"],
       [[CellValue.int 1, CellValue.str "Financial Metric", CellValue.null,
         CellValue.null, CellValue.str "Revenue", CellValue.str "Revenue",
         CellValue.int 100],
        [CellValue.int 2, CellValue.str "Financial Metric", CellValue.null,
         CellValue.null, CellValue.str "Product A", CellValue.str "Product A",
         CellValue.int 200]]⟩ := rfl

/-- C8: contrary to the claim, the row number build_row_data assigns is the
body offset plus 1, ignoring the header-skip count: with skip_header_rows =
1 the first body row sits at native spreadsheet row 2 (offset 0 + skip 1 +
1) but receives excel_row 1 — the field named "Excel Row" does not match the
sheet's native numbering. -/
theorem excelRow_ignores_header_skip :
    (buildRowData (twoRowSheet.drop 1)).map (fun r => r.excelRow) = [1] ∧
    ((processSheet twoRowSheet 1).toOption.map
      (fun df => df.rows.map (fun row => row.headD CellValue.null)))
      = some [CellValue.int 1] ∧
    CellValue.int 1 ≠ CellValue.int (0 + 1 + 1) := by
  refine ⟨rfl, rfl, by decide⟩

/-- C9 counterexample: a null identifying-column cell does not become the
empty string — Python str(None) is the text "None", which is what both
classification and header propagation consume, and what assign_headers
propagates. -/
theorem null_cell_text_cex :
    usedText [CellValue.null] = "None" ∧
    (assignHeaders (buildRowData [[CellValue.null]])).map (fun r => r.mainHeader)
      = [some "None"] ∧
    ("None" : String) ≠ "" :=
  ⟨rfl, rfl, by decide⟩

/-- C9 (amended): the identifying-column value used for classification and
header propagation is Python str() of the first cell followed by strip(): a
string cell contributes its trimmed text, but a null cell contributes the
text "None" (and an integer cell its decimal rendering) — not the empty
string. -/
theorem usedText_characterization :
    (∀ (s : String) (ds : List CellValue),
      usedText (CellValue.str s :: ds) = pyStrip s) ∧
    (∀ ds : List CellValue, usedText (CellValue.null :: ds) = "None") ∧
    (∀ (n : Int) (ds : List CellValue),
      usedText (CellValue.int n :: ds) = pyStrip (toString n)) ∧
    (∀ r : RowData, rowText r = usedText r.values) ∧
    (∀ (i : Int) (vals : List (List CellValue)) (r : List CellValue),
      buildRowDataFrom i (r :: vals)
        = ⟨i + 1, categorize (usedTextRaw r), r⟩ :: buildRowDataFrom (i + 1) vals) := by
  refine ⟨fun s ds => rfl, fun ds => rfl, fun n ds => rfl, fun r => rfl, fun i vals r => rfl⟩

/-- C5: the Wide-to-Long Transformer emits exactly one long-format record per
(retained body row, period column) pair, so before null-amount filtering the
record count is the number of retained body rows times the number of period
columns. -/
theorem meltSheet_length (periodCols : List String) (rows : List MeltRow) :
    (meltSheet periodCols rows).length = rows.length * periodCols.length := by
  induction rows with
  | nil => simp [meltSheet]
  | cons r rest ih =>
    simp only [meltSheet, List.length_append, List.length_map, List.length_cons, ih,
      Nat.succ_mul]
    omega

/-- Membership in the keep-first duplicate removal: a value appears in the
output exactly when it appears in the input and was not already seen. -/
theorem mem_ddAux {α : Type} [DecidableEq α] (l : List α) :
    ∀ (seen : List α) (a : α), a ∈ ddAux seen l ↔ a ∈ l ∧ a ∉ seen := by
  induction l with
  | nil =>
    intro seen a
    simp [ddAux]
  | cons x xs ih =>
    intro seen a
    by_cases hx : x ∈ seen
    · rw [ddAux, if_pos hx, ih]
      constructor
      · rintro ⟨h1, h2⟩
        exact ⟨List.mem_cons_of_mem _ h1, h2⟩
      · rintro ⟨h1, h2⟩
        rcases List.mem_cons.mp h1 with rfl | h1
        · exact absurd hx h2
        · exact ⟨h1, h2⟩
    · rw [ddAux, if_neg hx]
      constructor
      · intro h
        rcases List.mem_cons.mp h with rfl | h
        · exact ⟨List.mem_cons_self _ _, hx⟩
        · rcases (ih _ _).mp h with ⟨h1, h2⟩
          refine ⟨List.mem_cons_of_mem _ h1, fun hs => h2 (List.mem_cons_of_mem _ hs)⟩
      · rintro ⟨h1, h2⟩
        rcases List.mem_cons.mp h1 with rfl | h1
        · exact List.mem_cons_self _ _
        · by_cases hax : a = x
          · subst hax
            exact List.mem_cons_self _ _
          · refine List.mem_cons_of_mem _ ((ih _ _).mpr ⟨h1, ?_⟩)
            intro hm
            rcases List.mem_cons.mp hm with h | h
            · exact hax h
            · exact h2 h

/-- The keep-first duplicate removal never outputs a value twice. -/
theorem nodup_ddAux {α : Type} [DecidableEq α] (l : List α) :
    ∀ seen : List α, (ddAux seen l).Nodup := by
  induction l with
  | nil =>
    intro seen
    simp [ddAux]
  | cons x xs ih =>
    intro seen
    by_cases hx : x ∈ seen
    · rw [ddAux, if_pos hx]
      exact ih seen
    · rw [ddAux, if_neg hx]
      refine List.nodup_cons.mpr ⟨?_, ih _⟩
      intro hmem
      rcases (mem_ddAux xs _ x).mp hmem with ⟨_, h2⟩
      exact h2 (List.mem_cons_self _ _)

/-- On a duplicate-free list disjoint from the seen accumulator, the
keep-first duplicate removal is the identity. -/
theorem ddAux_eq_self {α : Type} [DecidableEq α] (l : List α) :
    ∀ seen : List α, l.Nodup → (∀ a ∈ l, a ∉ seen) → ddAux seen l = l := by
  induction l with
  | nil =>
    intro seen _ _
    rfl
  | cons x xs ih =>
    intro seen hnd hdisj
    have hx : x ∉ seen := hdisj x (List.mem_cons_self _ _)
    rw [ddAux, if_neg hx]
    congr 1
    refine ih _ (List.nodup_cons.mp hnd).2 ?_
    intro a ha hmem
    rcases List.mem_cons.mp hmem with rfl | hmem
    · exact (List.nodup_cons.mp hnd).1 ha
    · exact hdisj a (List.mem_cons_of_mem _ ha) hmem

/-- C6: the Workbook Aggregator's duplicate removal is exact and idempotent:
applying it twice equals applying it once; every input record still appears
in the output (partial matches are retained); each record appearing in the
input appears exactly once in the output (only its exact full-row duplicates
are removed); and two combined records are equal precisely when every field,
the five attached metadata fields included, is equal. -/
theorem dropDuplicates_exact_and_idempotent :
    (∀ l : List CombinedRecord, dropDuplicates (dropDuplicates l) = dropDuplicates l) ∧
    (∀ (l : List CombinedRecord) (r : CombinedRecord),
      r ∈ dropDuplicates l ↔ r ∈ l) ∧
    (∀ (l : List CombinedRecord) (r : CombinedRecord), r ∈ l →
      (dropDuplicates l).count r = 1) ∧
    (∀ r s : CombinedRecord, r = s ↔
      (r.excelRow = s.excelRow ∧ r.category = s.category ∧
       r.isStatementHeader = s.isStatementHeader ∧ r.subHeader = s.subHeader ∧
       r.mainHeader = s.mainHeader ∧ r.cells = s.cells ∧
       r.workbookName = s.workbookName ∧ r.sheetName = s.sheetName ∧
       r.company = s.company ∧ r.segment = s.segment ∧
       r.periodEnd = s.periodEnd)) := by
  refine ⟨?_, ?_, ?_, ?_⟩
  · intro l
    exact ddAux_eq_self _ _ (nodup_ddAux _ _) (fun a _ h => absurd h (List.not_mem_nil a))
  · intro l r
    rw [dropDuplicates, mem_ddAux]
    simp
  · intro l r hr
    exact List.count_eq_one_of_mem (nodup_ddAux _ _)
      ((mem_ddAux _ _ _).mpr ⟨hr, List.not_mem_nil r⟩)
  · intro r s
    cases r
    cases s
    simp only [CombinedRecord.mk.injEq]

/-- A concrete combined record used to witness the duplicate-removal claim. -/
def demoRecord : CombinedRecord :=
  ⟨1, "Financial Metric", none, none, some "Revenue",
   [CellValue.str "Revenue", CellValue.int 100], "wb1", "Sheet1",
   CellValue.str "Co", CellValue.null, CellValue.null⟩

/-- Witness for C6: an input holding the same record twice keeps it exactly
once. -/
theorem dropDuplicates_exact_and_idempotent_witness :
    (dropDuplicates [demoRecord, demoRecord]).count demoRecord = 1 :=
  dropDuplicates_exact_and_idempotent.2.2.1 [demoRecord, demoRecord] demoRecord
    (List.mem_cons_self _ _)

/-- The sub-header component of assign_headers' final state is the text of
the first (topmost) "Sub Header" row of the sequence, because the reverse
scan visits it last. -/
theorem assignAux_snd_sh (rows : List RowData) :
    (assignAux rows).2.sh
      = ((rows.find? fun r => r.category == "Sub Header").map rowText) := by
  induction rows with
  | nil => rfl
  | cons r rest ih =>
    simp only [assignAux]
    by_cases h1 : r.category = "IS Statement Header"
    · have h2 : ¬ r.category = "Sub Header" := by
        rw [h1]
        decide
      rw [List.find?_cons_of_neg _ (by simp [h2]), updateState, if_pos h1]
      exact ih
    · by_cases h2 : r.category = "Sub Header"
      · rw [List.find?_cons_of_pos _ (by simp [h2]), updateState, if_neg h1, if_pos h2]
        rfl
      · rw [List.find?_cons_of_neg _ (by simp [h2]), updateState, if_neg h1, if_neg h2]
        exact ih

/-- Each output position of assign_headers carries, as its sub-header, the
text of the first "Sub Header" row at or after that position. -/
theorem assignAux_get_subHeader (rows : List RowData) :
    ∀ i : Nat, i < rows.length →
      ((assignAux rows).1[i]?).map ClassifiedRow.subHeader
        = some (((rows.drop i).find? fun r => r.category == "Sub Header").map rowText) := by
  induction rows with
  | nil =>
    intro i hi
    exact absurd hi (by simp)
  | cons r rest ih =>
    intro i hi
    cases i with
    | zero =>
      have hsh := assignAux_snd_sh (r :: rest)
      simp only [assignAux] at hsh
      simp only [assignAux, List.getElem?_cons_zero, Option.map_some', mkClassified,
        List.drop_zero]
      rw [hsh]
    | succ n =>
      have hn : n < rest.length := by
        simpa using Nat.lt_of_succ_lt_succ (by simpa using hi)
      simp only [assignAux, List.getElem?_cons_succ, List.drop_succ_cons]
      exact ih n hn

/-- C1: sub-header propagation — assign_headers scans the rows from last to
first with a current sub-header (initially null), updates it at each
"Sub Header" row to that row's stripped identifying-column text, and writes
the current value into every visited row; hence every row's inherited
sub-header equals the identifying-column text of the nearest "Sub Header"
row at or below its position in top-to-bottom order (null when no such row
exists), and a "Sub Header" row's own inherited field is its own text. -/
theorem assignHeaders_subHeader_nearest (rows : List RowData) (i : Nat)
    (hi : i < rows.length) :
    ((assignHeaders rows)[i]?).map ClassifiedRow.subHeader
      = some (((rows.drop i).find? fun r => r.category == "Sub Header").map rowText)
    ∧ ∀ r : RowData, rows[i]? = some r → r.category = "Sub Header" →
        ((assignHeaders rows)[i]?).map ClassifiedRow.subHeader = some (some (rowText r)) := by
  constructor
  · exact assignAux_get_subHeader rows i hi
  · intro r hr hcat
    have hget : rows[i]? = some rows[i] := List.getElem?_eq_getElem hi
    rw [hget] at hr
    injection hr with hr'
    subst hr'
    rw [assignHeaders, assignAux_get_subHeader rows i hi,
      List.drop_eq_getElem_cons hi, List.find?_cons_of_pos _ (by simp [hcat])]
    rfl

/-- A two-row body used to witness the propagation claim: a metric row above
a "Sub Header" row. -/
def demoBody : List RowData :=
  [⟨1, "Financial Metric", [CellValue.str "Product A", CellValue.int 100]⟩,
   ⟨2, "Sub Header", [CellValue.str " Sub Total ", CellValue.int 200]⟩]

/-- Witness for C1: the metric row at position 0 inherits the stripped text
of the "Sub Header" row below it, and the "Sub Header" row keeps its own
text. -/
theorem assignHeaders_subHeader_nearest_witness :
    ((assignHeaders demoBody)[0]?).map ClassifiedRow.subHeader
      = some (some "Sub Total") ∧
    ((assignHeaders demoBody)[1]?).map ClassifiedRow.subHeader
      = some (some "Sub Total") := by
  constructor
  · exact ((assignHeaders_subHeader_nearest demoBody 0 (by decide)).1).trans (by decide)
  · exact ((assignHeaders_subHeader_nearest demoBody 1 (by decide)).2
      ⟨2, "Sub Header", [CellValue.str " Sub Total ", CellValue.int 200]⟩
      (by decide) rfl).trans (by decide)

/-- Inversion of the FY component: a successful parse exposes the "FY"
letters and the 2 or 4 digits. -/
theorem parseFYchars_eq_some (cs : List Char) (fy : String)
    (h : parseFYchars cs = some fy) :
    ∃ f y ds, cs = f :: y :: ds ∧ f.toLower = 'f' ∧ y.toLower = 'y' ∧
      ds.all Char.isDigit = true ∧ (ds.length = 2 ∨ ds.length = 4) ∧
      fy = expandYear ds := by
  rcases cs with _ | ⟨f, rest⟩
  · simp [parseFYchars] at h
  rcases rest with _ | ⟨y, ds⟩
  · simp [parseFYchars] at h
  rw [parseFYchars] at h
  by_cases hc : f.toLower = 'f' ∧ y.toLower = 'y' ∧ ds.all Char.isDigit = true ∧
      (ds.length = 2 ∨ ds.length = 4)
  · rw [if_pos hc] at h
    injection h with h'
    exact ⟨f, y, ds, rfl, hc.1, hc.2.1, hc.2.2.1, hc.2.2.2, h'.symm⟩
  · rw [if_neg hc] at h
    exact absurd h (by simp)

/-- A non-null result of the fallback branch means the characters were a bare
FY form or the literal "All Periods" form. -/
theorem parseOtherChars_ne (cs : List Char)
    (h : parseOtherChars cs ≠ (none, none)) :
    FYFormDecomp cs ∨ APFormDecomp cs := by
  cases hfy : parseFYchars cs with
  | some fy =>
    left
    rcases parseFYchars_eq_some cs fy hfy with ⟨f, y, ds, rfl, h1, h2, h3, h4, _⟩
    exact ⟨f, y, ds, rfl, h1, h2, h3, h4⟩
  | none =>
    simp only [parseOtherChars, hfy] at h
    by_cases hap : cs.map Char.toLower = ['a', 'l', 'l', ' ', 'p', 'e', 'r', 'i', 'o', 'd', 's']
    · right
      exact hap
    · rw [if_neg hap] at h
      exact absurd rfl h

/-- C4: the Period Label Parser is total (it is a function, never an
exception); a label of the form Q{1-4} plus an optional separator (hyphen,
one space, or nothing) plus FY{2 or 4 digits}, case-insensitively, yields
the quarter "Q{n}" and the fiscal-year digits with a two-digit year expanded
by prefixing "20"; and any input on which the parser does not return the
two-null non-period sentinel matches one of the recognized period forms —
equivalently, every unmatched string yields the nulls. -/
theorem parsePeriodLabel_spec :
    (∀ (q d f y : Char) (sep ds : List Char),
      q.toLower = 'q' → '1' ≤ d → d ≤ '4' →
      (sep = [] ∨ sep = ['-'] ∨ sep = [' ']) →
      f.toLower = 'f' → y.toLower = 'y' →
      ds.all Char.isDigit = true → (ds.length = 2 ∨ ds.length = 4) →
      parsePeriodLabel (String.mk (q :: d :: (sep ++ f :: y :: ds)))
        = (some (String.mk ['Q', d]), some (expandYear ds))) ∧
    (∀ s : String, parsePeriodLabel s ≠ (none, none) → matchesPeriodForm s) := by
  constructor
  · intro q d f y sep ds hq h1 h4 hsep hf hy hds hlen
    have hsL : (String.mk (q :: d :: (sep ++ f :: y :: ds))).toList
        = q :: d :: (sep ++ f :: y :: ds) := rfl
    rw [parsePeriodLabel, hsL]
    have hcs : consumeSep (sep ++ f :: y :: ds) = f :: y :: ds := by
      rcases hsep with rfl | rfl | rfl
      · simp only [List.nil_append, consumeSep]
        rw [if_neg]
        rintro (rfl | rfl)
        · exact absurd hf (by decide)
        · exact absurd hf (by decide)
      · simp [consumeSep]
      · simp [consumeSep]
    rw [parsePeriodChars, if_pos ⟨hq, h1, h4⟩, hcs, parseFYchars,
      if_pos ⟨hf, hy, hds, hlen⟩]
  · intro s h
    rw [parsePeriodLabel] at h
    rw [matchesPeriodForm]
    rcases hcs : s.toList with _ | ⟨q, rest⟩
    · rw [hcs] at h
      simp only [parsePeriodChars] at h
      exact Or.inr (parseOtherChars_ne _ h)
    rcases rest with _ | ⟨d, rest2⟩
    · rw [hcs] at h
      simp only [parsePeriodChars] at h
      exact Or.inr (parseOtherChars_ne _ h)
    rw [hcs] at h
    by_cases hcond : q.toLower = 'q' ∧ '1' ≤ d ∧ d ≤ '4'
    · rw [parsePeriodChars, if_pos hcond] at h
      cases hfy : parseFYchars (consumeSep rest2) with
      | none =>
        rw [hfy] at h
        exact absurd rfl h
      | some fy =>
        left
        rcases parseFYchars_eq_some _ fy hfy with ⟨f, y, ds, hEq, hf, hy, hds, hlen, _⟩
        rcases rest2 with _ | ⟨c, r2⟩
        · simp [consumeSep] at hEq
        by_cases hc : c = '-' ∨ c = ' '
        · have hr2 : r2 = f :: y :: ds := by
            simpa [consumeSep, hc] using hEq
          refine ⟨q, d, f, y, [c], ds, ?_, hcond.1, hcond.2.1, hcond.2.2, ?_, hf, hy,
            hds, hlen⟩
          · rw [hr2]
            rfl
          · rcases hc with rfl | rfl
            · exact Or.inr (Or.inl rfl)
            · exact Or.inr (Or.inr rfl)
        · have hr2 : c :: r2 = f :: y :: ds := by
            simpa [consumeSep, hc] using hEq
          refine ⟨q, d, f, y, [], ds, ?_, hcond.1, hcond.2.1, hcond.2.2,
            Or.inl rfl, hf, hy, hds, hlen⟩
          rw [List.nil_append, ← hr2]
    · rw [parsePeriodChars, if_neg hcond] at h
      exact Or.inr (parseOtherChars_ne _ h)

/-- Witness for C4: the mixed-case label "q1-FY23" parses to quarter "Q1"
and year "2023", and "FY29" (non-null output) indeed matches a recognized
period form. -/
theorem parsePeriodLabel_spec_witness :
    parsePeriodLabel (String.mk ['q', '1', '-', 'F', 'Y', '2', '3'])
      = (some (String.mk ['Q', '1']), some (expandYear ['2', '3'])) ∧
    matchesPeriodForm "FY29" := by
  constructor
  · exact parsePeriodLabel_spec.1 'q' '1' 'F' 'Y' ['-'] ['2', '3'] (by decide)
      (by decide) (by decide) (Or.inr (Or.inl rfl)) (by decide) (by decide)
      (by decide) (Or.inl rfl)
  · exact parsePeriodLabel_spec.2 "FY29" (by decide)

end FinParser
